import Mathlib

/-!
Shallow embedding of the screeps-world worker-agent controller
(`src/lib.rs`): the `CreepTarget` assignment store, the per-creep task
executor `run_creep`, and the target assigner `assign_new_targets`.

World queries and the action gateway are modelled as oracle functions in a
`World` / `AssignWorld` snapshot record; game object handles are modelled by
their stable ids and positions.  Machine integers (`u8`, `u32`) are modelled
as `Nat` with explicit `% 256` where the Rust code performs wrapping `u8`
arithmetic.  Fallible operations (`look_for`, `resolve`, `.unwrap()`) are
modelled with `Option`; the actual panic of an `.unwrap()` on `None`
surfaces as a `none` result of the enclosing pass.
-/

namespace Screeps

/-- A room position; the single-room model drops the room name component of
`Position` (every query in the embedded code stays inside one room). -/
structure Pos where
  x : Nat
  y : Nat
deriving DecidableEq, Repr

/-- The structure kinds the code dispatches on (`StructureObject` /
`StructureType` match arms); `other` stands for every remaining kind. -/
inductive SType
  | rampart | wall | tower | extension | spawnS | container | road | controller | other
deriving DecidableEq, Repr

/-- A structure object as seen in one tick's snapshot: id, kind, position,
hit points, and the store amounts/capabilities the code reads. -/
structure Structure where
  id : Nat
  stype : SType
  pos : Pos
  hits : Nat
  hitsMax : Nat
  /-- whether `as_repairable()` returns `Some` for this object -/
  repairable : Bool
  /-- whether `as_transferable()` returns `Some` for this object -/
  transferable : Bool
  /-- `store().get_used_capacity(Some(Energy))` -/
  usedEnergy : Nat
  /-- `store().get_free_capacity(Some(Energy))` -/
  freeEnergy : Nat
deriving DecidableEq, Repr

/-- A construction site: kind, position and build progress counters. -/
structure Site where
  stype : SType
  pos : Pos
  progress : Nat
  progressTotal : Nat
deriving DecidableEq, Repr

/-- A dropped resource pile (`find::DROPPED_RESOURCES` element). -/
structure Resource where
  id : Nat
  pos : Pos
  amount : Nat
  /-- whether `resource_type() == ResourceType::Energy` -/
  isEnergy : Bool
deriving DecidableEq, Repr

/-- A resolvable source node. -/
structure Source where
  id : Nat
  pos : Pos
deriving DecidableEq, Repr

/-- A resolvable controller. -/
structure Controller where
  id : Nat
  pos : Pos
deriving DecidableEq, Repr

/-- The state of one creep read by the code this tick. -/
structure CreepState where
  name : String
  spawning : Bool
  pos : Pos
  /-- `store().get_used_capacity(Some(Energy))` -/
  usedEnergy : Nat
  /-- `store().get_free_capacity(Some(Energy))` -/
  freeEnergy : Nat
  /-- `store().get_capacity(Some(Energy))` -/
  capacity : Nat
  /-- `body().iter().any(|b| matches!(b.part(), Part::Carry))` -/
  hasCarry : Bool
deriving DecidableEq, Repr

/-- The `CreepTarget` enum of `src/lib.rs`: a creep's persisted lock on a
target, keyed by position or by stable object id. -/
inductive CreepTarget
  | construct (p : Pos)
  | pickup (p : Pos)
  | repair (p : Pos)
  | deposit (p : Pos)
  | harvest (id : Nat)
  | upgrade (id : Nat)
  | withdraw (id : Nat)
deriving DecidableEq, Repr

/-- The `CREEP_TARGETS` hash map, modelled as an association list with
unique keys (insertion replaces; iteration uses only order-independent
`any` predicates in the code). -/
abbrev Store := List (String × CreepTarget)

def Store.get (s : Store) (n : String) : Option CreepTarget :=
  (s.find? (fun e => e.1 == n)).map (fun e => e.2)

def Store.containsName (s : Store) (n : String) : Bool :=
  (s.find? (fun e => e.1 == n)).isSome

def Store.removeName (s : Store) (n : String) : Store :=
  s.filter (fun e => e.1 != n)

def Store.insertName (s : Store) (n : String) (t : CreepTarget) : Store :=
  (n, t) :: s.removeName n

/-- The commands the code issues through the action gateway, each
identifying its target by id or position. -/
inductive Command
  | moveToPos (p : Pos)
  | moveToController (id : Nat)
  | moveToSource (id : Nat)
  | moveToContainer (id : Nat)
  | upgradeC (id : Nat)
  | buildC (p : Pos)
  | repairC (id : Nat)
  | harvestC (id : Nat)
  | withdrawC (id : Nat)
  | pickupC (id : Nat)
  | transferC (id : Nat)
  | suicideC (name : String)
deriving DecidableEq, Repr

/-- The engine error codes the code distinguishes: `NotInRange` keeps an
assignment alive; every other code is handled uniformly. -/
inductive ErrCode
  | notInRange
  | notEnough
  | invalidTarget
  | busy
  | otherErr
deriving DecidableEq, Repr

/-- `creep.pos().is_near_to(p)`: Chebyshev distance at most 1. -/
def isNearTo (a b : Pos) : Bool :=
  (max a.x b.x - min a.x b.x ≤ 1) && (max a.y b.y - min a.y b.y ≤ 1)

/-- The per-tick world snapshot the executor reads: `look_for` queries
(`Option` models `Result`), id resolution, the in-range structure query used
by the harvest branch, and the action gateway's verdict on each command
(`none` = `Ok(())`, `some e` = `Err(e)`). -/
structure World where
  lookConstructionSites : Pos → Option (List Site)
  lookStructures : Pos → Option (List Structure)
  lookEnergy : Pos → Option (List Resource)
  resolveController : Nat → Option Controller
  resolveSource : Nat → Option Source
  resolveContainer : Nat → Option Structure
  findInRangeStructures : Pos → Nat → List Structure
  actRes : Command → Option ErrCode

/-- `run_creep` of `src/lib.rs` (lines 212-393) for one creep: returns the
updated store and the commands issued.  A match arm whose capacity guard
fails falls through to the wildcard arm `_ => { remove }` because every
`CreepTarget` constructor is matched by exactly one guarded arm; the
`if guard then armBody else clearArm` shape below is that fall-through. -/
def run_creep (w : World) (creep : CreepState) (store : Store) :
    Store × List Command :=
  if creep.spawning then (store, [])
  else
    let name := creep.name
    match store.get name with
    | none => (store, [])
    | some t =>
      let clearArm : Store × List Command := (store.removeName name, [])
      match t with
      | .upgrade cid =>
        if 0 < creep.usedEnergy then
          match w.resolveController cid with
          | some controller =>
            match w.actRes (.upgradeC controller.id) with
            | none => (store, [.upgradeC controller.id])
            | some .notInRange =>
              (store, [.upgradeC controller.id, .moveToController controller.id])
            | some _ => (store.removeName name, [.upgradeC controller.id])
          | none => (store.removeName name, [])
        else clearArm
      | .construct p =>
        if 0 < creep.usedEnergy then
          if isNearTo creep.pos p then
            match w.lookConstructionSites p with
            | some results =>
              match results.head? with
              | some _site =>
                match w.actRes (.buildC p) with
                | none => (store, [.buildC p])
                | some _ => (store.removeName name, [.buildC p])
              | none =>
                match w.lookStructures p with
                | some ramparts =>
                  match ramparts.find? (fun s => s.stype == .rampart) with
                  | some rampart =>
                    match w.actRes (.repairC rampart.id) with
                    | none => (store, [.repairC rampart.id])
                    | some _ => (store.removeName name, [.repairC rampart.id])
                  | none => (store.removeName name, [])
                | none => (store.removeName name, [])
            | none => (store.removeName name, [])
          else (store, [.moveToPos p])
        else clearArm
      | .harvest sid =>
        match w.resolveSource sid with
        | some source =>
          if isNearTo creep.pos source.pos then
            let containers := w.findInRangeStructures source.pos 1
            match containers.find? (fun s => s.stype == .container) with
            | some container =>
              if creep.pos ≠ container.pos then (store, [.moveToPos container.pos])
              else
                match w.actRes (.harvestC source.id) with
                | none => (store, [.harvestC source.id])
                | some _ => (store.removeName name, [.harvestC source.id])
            | none =>
              match w.actRes (.harvestC source.id) with
              | none => (store, [.harvestC source.id])
              | some _ => (store.removeName name, [.harvestC source.id])
          else (store, [.moveToSource source.id])
        | none => (store.removeName name, [])
      | .withdraw cid =>
        if 0 < creep.freeEnergy then
          match w.resolveContainer cid with
          | some st =>
            if isNearTo creep.pos st.pos then
              match w.actRes (.withdrawC st.id) with
              | none => (store, [.withdrawC st.id])
              | some _ => (store.removeName name, [.withdrawC st.id])
            else (store, [.moveToContainer st.id])
          | none => (store.removeName name, [])
        else clearArm
      | .pickup p =>
        if 0 < creep.freeEnergy then
          match w.lookEnergy p with
          | some resources =>
            match resources.head? with
            | some resource =>
              if isNearTo creep.pos p then
                match w.actRes (.pickupC resource.id) with
                | none => (store, [.pickupC resource.id])
                | some _ => (store.removeName name, [.pickupC resource.id])
              else (store, [.moveToPos p])
            | none => (store.removeName name, [])
          | none => (store.removeName name, [])
        else clearArm
      | .deposit p =>
        if 0 < creep.usedEnergy then
          let targets := (w.lookStructures p).getD []
          match targets.find? (fun s =>
              s.stype == .extension || s.stype == .spawnS || s.stype == .tower) with
          | some st =>
            if isNearTo creep.pos st.pos then
              if st.transferable then
                match w.actRes (.transferC st.id) with
                | none => (store, [.transferC st.id])
                | some _ => (store.removeName name, [.transferC st.id])
              else (store, [])
            else (store, [.moveToPos p])
          | none => (store.removeName name, [])
        else clearArm
      | .repair p =>
        if 0 < creep.usedEnergy then
          if isNearTo creep.pos p then
            match w.lookStructures p with
            | some structures =>
              match structures.find? (fun s => s.hits < s.hitsMax) with
              | some st =>
                if st.repairable then
                  match w.actRes (.repairC st.id) with
                  | none => (store, [.repairC st.id])
                  | some _ => (store.removeName name, [.repairC st.id])
                else (store.removeName name, [])
              | none => (store.removeName name, [])
            | none => (store.removeName name, [])
          else (store, [.moveToPos p])
        else clearArm

/-- Rust `Iterator::min_by_key` made generic in the strict comparison:
returns the first element whose key is minimal (a later element replaces the
running minimum only when its key is strictly smaller). -/
def minByWith {α : Type} (lt : α → α → Bool) : List α → Option α
  | [] => none
  | a :: as =>
    match minByWith lt as with
    | none => some a
    | some b => if lt b a then some b else some a

/-- Rust `Iterator::max_by_key` with a `Nat` key: returns the last element
whose key is maximal (a later element replaces the running maximum unless
the earlier one's key is strictly greater). -/
def maxByKey {α : Type} (f : α → Nat) : List α → Option α
  | [] => none
  | a :: as =>
    match maxByKey f as with
    | none => some a
    | some b => if f b < f a then some a else some b

/-- Strict lexicographic order on `Nat × Nat`, the order of Rust's derived
`Ord` on 2-tuples used by the repair `sort_by_key`. -/
def lexLt (a b : Nat × Nat) : Bool :=
  a.1 < b.1 || (a.1 == b.1 && a.2 < b.2)

def isDepositT : CreepTarget → Bool
  | .deposit _ => true
  | _ => false

def isConstructT : CreepTarget → Bool
  | .construct _ => true
  | _ => false

def isRepairT : CreepTarget → Bool
  | .repair _ => true
  | _ => false

def isHarvestOf (t : CreepTarget) (sid : Nat) : Bool :=
  match t with
  | .harvest id => id == sid
  | _ => false

/-- `creep_targets.values().any(|t| matches!(t, CreepTarget::Deposit(_)))`. -/
def anyDeposit (store : Store) : Bool :=
  store.any (fun e => isDepositT e.2)

/-- `creep_targets.values().any(|t| matches!(t, CreepTarget::Construct(_)))`. -/
def anyConstruct (store : Store) : Bool :=
  store.any (fun e => isConstructT e.2)

/-- The room snapshot the assigner queries (`room.find(...)` results). -/
structure Room where
  /-- `find::MY_STRUCTURES` -/
  myStructures : List Structure
  /-- `find::STRUCTURES` -/
  allStructures : List Structure
  /-- `find::MY_CONSTRUCTION_SITES` -/
  constructionSites : List Site
  /-- `find::DROPPED_RESOURCES` -/
  droppedResources : List Resource
  /-- `find::SOURCES_ACTIVE` -/
  activeSources : List Source

/-- The world snapshot the assigner reads: each creep's room and the
`look_for(STRUCTURES)` query used by the road-vacating fallback. -/
structure AssignWorld where
  roomOf : String → Room
  posStructures : Pos → Option (List Structure)

/-- One energy-sink tier of lines 425-444: `min_by_key` on free energy
capacity, then the global no-`Deposit` gate, then insertion.  `none` means
the tier fell through to the next one. -/
def tryDeposit (store : Store) (creep : CreepState) (cands : List Structure) :
    Option Store :=
  match minByWith (fun a b => a.freeEnergy < b.freeEnergy) cands with
  | some target =>
    if !anyDeposit store then
      some (store.insertName creep.name (.deposit target.pos))
    else none
  | none => none

/-- Lines 402-444: filter spawns/extensions/towers with free energy
capacity, then try the three tiers in the order extension, spawn, tower. -/
def depositBranch (store : Store) (creep : CreepState) (room : Room) :
    Option Store :=
  let spawns := room.myStructures.filter
    (fun s => s.stype == .spawnS && 0 < s.freeEnergy)
  let extensions := room.myStructures.filter
    (fun s => s.stype == .extension && 0 < s.freeEnergy)
  let towers := room.myStructures.filter
    (fun s => s.stype == .tower && 0 < s.freeEnergy)
  match tryDeposit store creep extensions with
  | some s1 => some s1
  | none =>
    match tryDeposit store creep spawns with
    | some s1 => some s1
    | none => tryDeposit store creep towers

/-- One construction-site tier of lines 453-479: `min_by_key` on remaining
work (`progress_total - progress`, `Nat` subtraction as in `u32` where
progress never exceeds the total), then the tier's gate, then insertion. -/
def tryConstructTier (store : Store) (creep : CreepState) (gate : Bool)
    (sites : List Site) : Option Store :=
  match minByWith (fun a b =>
      a.progressTotal - a.progress < b.progressTotal - b.progress) sites with
  | some site =>
    if gate then some (store.insertName creep.name (.construct site.pos))
    else none
  | none => none

/-- Lines 446-479: split the room's construction sites into the four tiers
and try them in the order defensive, container, extension, other.  The
defensive tier's gate also re-checks the candidate creep's own liveness
(the `game::creeps().values().any(|c| c.name() == name)` of line 454, where
`name` is the outer creep's name). -/
def constructBranch (live : List String) (store : Store) (creep : CreepState)
    (room : Room) : Option Store :=
  let sites := room.constructionSites
  let defensiveSites := sites.filter (fun s =>
    s.stype == .rampart || s.stype == .wall || s.stype == .tower)
  let extensionSites := sites.filter (fun s => s.stype == .extension)
  let containerSites := sites.filter (fun s => s.stype == .container)
  let otherSites := sites.filter (fun s =>
    !([SType.extension, SType.container, SType.rampart, SType.wall,
       SType.tower].contains s.stype))
  match tryConstructTier store creep
      (!anyConstruct store && live.contains creep.name) defensiveSites with
  | some s1 => some s1
  | none =>
    match tryConstructTier store creep (!anyConstruct store) containerSites with
    | some s1 => some s1
    | none =>
      match tryConstructTier store creep (!anyConstruct store) extensionSites with
      | some s1 => some s1
      | none => tryConstructTier store creep (!anyConstruct store) otherSites

/-- Line 482-485: the repair candidate set — structures whose
`as_repairable()` is `Some` and whose hits are below half their maximum
(`u32` division, modelled by `Nat` division). -/
def repairCandidates (room : Room) : List Structure :=
  room.allStructures.filter
    (fun s => s.repairable && s.hits < s.hitsMax / 2)

/-- Line 486-492: the `sort_by_key` key — ramparts sort before every other
kind of equal hits. -/
def repairKey (s : Structure) : Nat × Nat :=
  if s.stype == .rampart then (s.hits, 0) else (s.hits, 1)

/-- Line 493: the gate — no store entry that is a `Repair` assignment owned
by a live creep.  `live` is the list of `game::creeps()` names. -/
def repairGate (live : List String) (store : Store) : Bool :=
  !(store.any (fun e => isRepairT e.2 && live.contains e.1))

/-- Lines 481-498: sort the candidates by `repairKey` and take the first
(the stable sort followed by `.first()` is the first element with the
lexicographically least key, i.e. `min_by_key`), gated by `repairGate`. -/
def repairBranch (live : List String) (store : Store) (creep : CreepState)
    (room : Room) : Option Store :=
  if repairGate live store then
    match minByWith (fun a b => lexLt (repairKey a) (repairKey b))
        (repairCandidates room) with
    | some st => some (store.insertName creep.name (.repair st.pos))
    | none => none
  else none

/-- Lines 500-506: the unconditional fallback — the first controller among
the room's structures, if any. -/
def upgradeBranch (store : Store) (creep : CreepState) (room : Room) :
    Option Store :=
  match room.allStructures.find? (fun s => s.stype == .controller) with
  | some controller => some (store.insertName creep.name (.upgrade controller.id))
  | none => none

/-- The delivering role (lines 402-506): the four branch groups in priority
order; a branch that assigns ends the creep's turn (`continue`), and a creep
for which every branch falls through keeps no assignment. -/
def assignDelivering (live : List String) (store : Store) (creep : CreepState)
    (room : Room) : Store :=
  match depositBranch store creep room with
  | some s1 => s1
  | none =>
    match constructBranch live store creep room with
    | some s1 => s1
    | none =>
      match repairBranch live store creep room with
      | some s1 => s1
      | none =>
        match upgradeBranch store creep room with
        | some s1 => s1
        | none => store

/-- `dx as u8`: the `i32` offset reinterpreted as an unsigned 8-bit value. -/
def asU8 (dx : Int) : Nat :=
  (dx % 256).toNat

/-- Wrapping `u8` addition (the release-mode semantics of the `+` on
line 555). -/
def u8add (a b : Nat) : Nat :=
  (a + b) % 256

/-- `RoomCoordinate::new`: succeeds exactly on coordinates within the
49-bounded room grid. -/
def roomCoordinateNew (v : Nat) : Option Nat :=
  if v ≤ 49 then some v else none

/-- The neighbor-tile computation of line 555: both coordinates go through
the wrapping `u8` addition and then `RoomCoordinate::new(..).unwrap()`;
`none` is the panic of an `unwrap` on an out-of-range coordinate. -/
def neighborPos (p : Pos) (d : Int × Int) : Option Pos :=
  match roomCoordinateNew (u8add p.x (asU8 d.1)) with
  | none => none
  | some x =>
    match roomCoordinateNew (u8add p.y (asU8 d.2)) with
    | none => none
    | some y => some ⟨x, y⟩

/-- The offsets visited by the nested `-1..=1` loops of lines 549-554, in
iteration order, with `(0, 0)` skipped by the `continue`. -/
def offsets : List (Int × Int) :=
  [(-1, -1), (-1, 0), (-1, 1), (0, -1), (0, 1), (1, -1), (1, 0), (1, 1)]

/-- The scan of lines 549-563: visit the offsets in order; a panicking
neighbor computation aborts the pass (`none`); the first neighbor whose
structures are fetched successfully and contain no road wins a `move_to`
and stops the scan (`break 'dx`); a neighbor whose `look_for` fails is
skipped. -/
def scanOffsets (w : AssignWorld) (p : Pos) :
    List (Int × Int) → Option (List Command)
  | [] => some []
  | d :: ds =>
    match neighborPos p d with
    | none => none
    | some np =>
      match w.posStructures np with
      | some structures =>
        if !(structures.any (fun s => s.stype == .road)) then
          some [.moveToPos np]
        else scanOffsets w p ds
      | none => scanOffsets w p ds

/-- Lines 546-565: the road-vacating fallback — if the creep's own tile
holds a road, scan the eight neighbors; a failed `look_for` on the creep's
tile skips the whole block. -/
def roadFallback (w : AssignWorld) (p : Pos) : Option (List Command) :=
  match w.posStructures p with
  | some structures =>
    if structures.any (fun s => s.stype == .road) then
      scanOffsets w p offsets
    else some []
  | none => some []

/-- Lines 509-515: containers holding at least the creep's full carry
capacity. -/
def gatherContainers (room : Room) (creep : CreepState) : List Structure :=
  room.allStructures.filter (fun s =>
    s.stype == .container && creep.capacity ≤ s.usedEnergy)

/-- Lines 517-520: dropped energy piles of at least the creep's full carry
capacity. -/
def gatherDropped (room : Room) (creep : CreepState) : List Resource :=
  room.droppedResources.filter (fun r =>
    r.isEnergy && creep.capacity ≤ r.amount)

/-- Line 532-536: whether some live creep's store entry is a `Harvest` lock
on this source. -/
def sourceClaimed (live : List String) (store : Store) (src : Source) : Bool :=
  store.any (fun e => isHarvestOf e.2 src.id && live.contains e.1)

/-- The gathering role (lines 507-565).  The result carries the updated
store, the commands issued, and a flag set when the branch executed a
`return` (ending the whole sweep); `none` is the road-fallback panic. -/
def assignGathering (w : AssignWorld) (live : List String)
    (creep : CreepState) (store : Store) :
    Option (Store × List Command × Bool) :=
  let room := w.roomOf creep.name
  let containers := gatherContainers room creep
  let dropped := gatherDropped room creep
  if creep.hasCarry then
    match maxByKey (fun s => s.usedEnergy) containers with
    | some container =>
      some (store.insertName creep.name (.withdraw container.id), [], true)
    | none =>
      match maxByKey (fun r => r.amount) dropped with
      | some energy =>
        some (store.insertName creep.name (.pickup energy.pos), [], true)
      | none =>
        match roadFallback w creep.pos with
        | some cmds => some (store, cmds, false)
        | none => none
  else
    match room.activeSources.find?
        (fun source => !sourceClaimed live store source) with
    | some source =>
      some (store.insertName creep.name (.harvest source.id), [], true)
    | none =>
      match roadFallback w creep.pos with
      | some cmds => some (store, .suicideC creep.name :: cmds, false)
      | none => none

/-- One iteration of the `'creeps` loop (lines 396-567) for one creep:
skip if already assigned, else branch on carried energy.  The `Bool` is the
sweep-ending `return`; `none` is the road-fallback panic. -/
def assignOne (w : AssignWorld) (live : List String) (creep : CreepState)
    (store : Store) : Option (Store × List Command × Bool) :=
  if store.containsName creep.name then some (store, [], false)
  else
    if 0 < creep.usedEnergy then
      some (assignDelivering live store creep (w.roomOf creep.name), [], false)
    else assignGathering w live creep store

/-- The `'creeps` loop folded over the creep list: threads the store, stops
the whole sweep when an iteration hit a `return`, and propagates a panic. -/
def assignLoop (w : AssignWorld) (live : List String) :
    List CreepState → Store → Option (Store × List Command)
  | [], store => some (store, [])
  | c :: cs, store =>
    match assignOne w live c store with
    | none => none
    | some (s1, cmds1, true) => some (s1, cmds1)
    | some (s1, cmds1, false) =>
      match assignLoop w live cs s1 with
      | none => none
      | some (s2, cmds2) => some (s2, cmds1 ++ cmds2)

/-- `assign_new_targets` (lines 395-569): the sweep over `game::creeps()`,
whose value list also provides the liveness checks inside the pass. -/
def assign_new_targets (w : AssignWorld) (creeps : List CreepState)
    (store : Store) : Option (Store × List Command) :=
  assignLoop w (creeps.map (fun c => c.name)) creeps store

/-! ## Concrete snapshots used by witnesses and counterexamples -/

/-- A world snapshot where every query is empty and every action succeeds. -/
def baseWorld : World where
  lookConstructionSites := fun _ => some []
  lookStructures := fun _ => some []
  lookEnergy := fun _ => some []
  resolveController := fun _ => none
  resolveSource := fun _ => none
  resolveContainer := fun _ => none
  findInRangeStructures := fun _ _ => []
  actRes := fun _ => none

/-- A room snapshot with nothing in it. -/
def emptyRoom : Room := ⟨[], [], [], [], []⟩

/-- An assigner world over an empty room with no structures anywhere. -/
def baseAssignWorld : AssignWorld where
  roomOf := fun _ => emptyRoom
  posStructures := fun _ => some []

/-- The position named by the C2 counterexample's `Construct` assignment. -/
def cexPos : Pos := ⟨10, 11⟩

/-- A rampart at `cexPos` at full hit points (`hits = hitsMax`): not
damaged in the sense of the spec. -/
def cexRampart : Structure := ⟨5, .rampart, cexPos, 300, 300, true, false, 0, 0⟩

/-- A world with no construction sites, the full-health rampart as the only
structure anywhere, and every action succeeding. -/
def cexWorld : World :=
  { baseWorld with lookStructures := fun _ => some [cexRampart] }

def cexCreep : CreepState := ⟨"a", false, ⟨10, 10⟩, 50, 0, 50, true⟩

def cexStore : Store := [("a", CreepTarget.construct cexPos)]

/-- The structure that makes every tile of the C9 world a road. -/
def roadAt (p : Pos) : Structure := ⟨90, .road, p, 100, 100, true, false, 0, 0⟩

/-- An assigner world whose every tile holds a road and whose room is
empty, so a gathering creep reaches the road-vacating fallback. -/
def panicWorld : AssignWorld where
  roomOf := fun _ => emptyRoom
  posStructures := fun p => some [roadAt p]

/-- A carry-capable gathering creep standing on a road at the room edge
`x = 0`. -/
def panicCreep : CreepState := ⟨"a", false, ⟨0, 25⟩, 0, 50, 50, true⟩

/-- A container holding 80 energy, enough for a 50-capacity carrier. -/
def witContainer : Structure := ⟨5, .container, ⟨3, 3⟩, 100, 100, true, true, 80, 20⟩

/-- An assigner world whose room holds only `witContainer`. -/
def containerWorld : AssignWorld where
  roomOf := fun _ => { emptyRoom with allStructures := [witContainer] }
  posStructures := fun _ => some []

/-- An assigner world whose room holds one active source with id 3. -/
def sourceWorld : AssignWorld where
  roomOf := fun _ => { emptyRoom with activeSources := [⟨3, ⟨20, 20⟩⟩] }
  posStructures := fun _ => some []

/-- A carry-capable gathering creep named "a". -/
def carrierA : CreepState := ⟨"a", false, ⟨10, 10⟩, 0, 50, 50, true⟩

/-- A carry-capable gathering creep named "b". -/
def carrierB : CreepState := ⟨"b", false, ⟨11, 10⟩, 0, 50, 50, true⟩

/-- A pure-gatherer creep (no carry part) named "a". -/
def gathererA : CreepState := ⟨"a", false, ⟨10, 10⟩, 0, 0, 0, false⟩

/-- A pure-gatherer creep (no carry part) named "b". -/
def gathererB : CreepState := ⟨"b", false, ⟨11, 10⟩, 0, 0, 0, false⟩

/-- A damaged wall: hits well below half of its maximum. -/
def witWall : Structure := ⟨11, .wall, ⟨5, 5⟩, 10, 300, true, false, 0, 0⟩

/-- A damaged rampart with the same hits as `witWall`. -/
def witRampart : Structure := ⟨12, .rampart, ⟨6, 5⟩, 10, 300, true, false, 0, 0⟩

/-- A room holding the damaged wall and the equally damaged rampart. -/
def repairRoom : Room := { emptyRoom with allStructures := [witWall, witRampart] }

/-- An extension with free energy capacity 30. -/
def witExtension : Structure := ⟨21, .extension, ⟨4, 4⟩, 100, 100, true, true, 0, 30⟩

/-- An assigner world whose room holds only `witExtension`. -/
def extensionWorld : AssignWorld where
  roomOf := fun _ => { emptyRoom with myStructures := [witExtension] }
  posStructures := fun _ => some []

/-- A delivering creep (carrying energy) named "a". -/
def delivererA : CreepState := ⟨"a", false, ⟨10, 10⟩, 50, 0, 50, true⟩

/-- A delivering creep (carrying energy) named "b". -/
def delivererB : CreepState := ⟨"b", false, ⟨11, 10⟩, 50, 0, 50, true⟩

/-- The number of `Deposit` entries in the store. -/
def countDeposit (s : Store) : Nat :=
  (s.filter (fun e => isDepositT e.2)).length

/-! ## Claim theorems -/

/-- C4: a non-spawning agent holding `Withdraw(c)` with free capacity 0 has
its entry removed by the executor this tick, for every world (hence
regardless of the container's contents or resolvability), and no action or
movement command is issued for it. -/
theorem withdraw_guard_drop (w : World) (creep : CreepState) (store : Store)
    (cid : Nat)
    (hsp : creep.spawning = false)
    (hget : store.get creep.name = some (.withdraw cid))
    (hfree : creep.freeEnergy = 0) :
    run_creep w creep store = (store.removeName creep.name, []) := by
  simp only [run_creep, hsp, hget, hfree]
  simp

theorem withdraw_guard_drop_witness :
    let creep : CreepState := ⟨"a", false, ⟨10, 10⟩, 0, 0, 50, true⟩
    let store : Store := [("a", CreepTarget.withdraw 7)]
    creep.spawning = false ∧
    store.get creep.name = some (CreepTarget.withdraw 7) ∧
    creep.freeEnergy = 0 ∧
    run_creep baseWorld creep store = (store.removeName "a", []) :=
  ⟨rfl, by decide, rfl,
    withdraw_guard_drop baseWorld _ _ 7 rfl (by decide) rfl⟩

/-- C6: a non-spawning agent holding `Harvest(n)` whose node resolves and
who is not adjacent to the node gets exactly one move-toward command and an
unchanged store. -/
theorem harvest_range_gating (w : World) (creep : CreepState) (store : Store)
    (sid : Nat) (src : Source)
    (hsp : creep.spawning = false)
    (hget : store.get creep.name = some (.harvest sid))
    (hres : w.resolveSource sid = some src)
    (hfar : isNearTo creep.pos src.pos = false) :
    run_creep w creep store = (store, [.moveToSource src.id]) := by
  simp only [run_creep, hsp, hget, hres, hfar]
  simp

theorem harvest_range_gating_witness :
    let creep : CreepState := ⟨"a", false, ⟨10, 10⟩, 0, 50, 50, false⟩
    let store : Store := [("a", CreepTarget.harvest 3)]
    let w : World :=
      { baseWorld with resolveSource := fun _ => some ⟨3, ⟨20, 20⟩⟩ }
    creep.spawning = false ∧
    store.get creep.name = some (CreepTarget.harvest 3) ∧
    w.resolveSource 3 = some ⟨3, ⟨20, 20⟩⟩ ∧
    isNearTo creep.pos (⟨20, 20⟩ : Pos) = false ∧
    run_creep w creep store = (store, [Command.moveToSource 3]) :=
  ⟨rfl, by decide, rfl, by decide,
    harvest_range_gating _ _ _ 3 ⟨3, ⟨20, 20⟩⟩ rfl (by decide) rfl (by decide)⟩

/-- C5: for a non-spawning agent with energy holding `Upgrade(cid)`,
(1) if the id resolves and the upgrade action fails with out-of-range, a
move-toward is issued and the store is unchanged; (2) if it fails with any
other error, the entry is removed; (3) if the id does not resolve, the
entry is removed.  Out-of-range is thus the only failure that keeps the
assignment. -/
theorem upgrade_error_handling (w : World) (creep : CreepState)
    (store : Store) (cid : Nat)
    (hsp : creep.spawning = false)
    (hget : store.get creep.name = some (.upgrade cid))
    (hused : 0 < creep.usedEnergy) :
    (∀ ctrl, w.resolveController cid = some ctrl →
      w.actRes (.upgradeC ctrl.id) = some .notInRange →
      run_creep w creep store =
        (store, [.upgradeC ctrl.id, .moveToController ctrl.id])) ∧
    (∀ ctrl e, w.resolveController cid = some ctrl →
      w.actRes (.upgradeC ctrl.id) = some e → e ≠ .notInRange →
      run_creep w creep store =
        (store.removeName creep.name, [.upgradeC ctrl.id])) ∧
    (w.resolveController cid = none →
      run_creep w creep store = (store.removeName creep.name, [])) := by
  refine ⟨?_, ?_, ?_⟩
  · intro ctrl hres hact
    simp only [run_creep, hsp, hget, hres, hact]
    simp [hused]
  · intro ctrl e hres hact hne
    simp only [run_creep, hsp, hget, hres, hact]
    cases e <;> simp_all [hused]
  · intro hres
    simp only [run_creep, hsp, hget, hres]
    simp [hused]

theorem upgrade_error_handling_witness :
    let creep : CreepState := ⟨"a", false, ⟨10, 10⟩, 50, 0, 50, true⟩
    let store : Store := [("a", CreepTarget.upgrade 9)]
    let w : World :=
      { baseWorld with
        resolveController := fun _ => some ⟨9, ⟨25, 25⟩⟩,
        actRes := fun _ => some .notInRange }
    creep.spawning = false ∧
    store.get creep.name = some (CreepTarget.upgrade 9) ∧
    0 < creep.usedEnergy ∧
    run_creep w creep store =
      (store, [Command.upgradeC 9, Command.moveToController 9]) := by
  refine ⟨rfl, by decide, by decide, ?_⟩
  exact (upgrade_error_handling _ _ _ 9 rfl (by decide) (by decide)).1
    ⟨9, ⟨25, 25⟩⟩ rfl rfl

/-- C2 counterexample: an agent adjacent to its `Construct` position where
no construction site exists and the only structure is a rampart at full
hit points.  The claim requires the assignment to be dropped (no damaged
wall-type structure is present); the code instead issues a repair command
on the undamaged rampart and keeps the assignment. -/
theorem construct_repair_damage_counterexample :
    (cexRampart.hits < cexRampart.hitsMax) = False ∧
    run_creep cexWorld cexCreep cexStore = (cexStore, [Command.repairC 5]) := by
  constructor
  · simp [cexRampart]
  · decide

/-- C2 amended: for an agent with energy holding `Construct(pos)`, adjacent
to pos, with no construction site at pos, the executor repairs the first
rampart structure found at pos regardless of its hit points (keeping the
assignment on success, dropping it on failure); if no rampart is present
at pos, the assignment is dropped. -/
theorem construct_rampart_repair (w : World) (creep : CreepState)
    (store : Store) (p : Pos)
    (hsp : creep.spawning = false)
    (hget : store.get creep.name = some (.construct p))
    (hused : 0 < creep.usedEnergy)
    (hnear : isNearTo creep.pos p = true)
    (hsites : w.lookConstructionSites p = some []) :
    (∀ l r, w.lookStructures p = some l →
      l.find? (fun s => s.stype == .rampart) = some r →
      run_creep w creep store =
        (if w.actRes (.repairC r.id) = none then store
         else store.removeName creep.name, [.repairC r.id])) ∧
    (∀ l, w.lookStructures p = some l →
      l.find? (fun s => s.stype == .rampart) = none →
      run_creep w creep store = (store.removeName creep.name, [])) := by
  constructor
  · intro l r hl hfind
    simp only [run_creep, hsp, hget, hsites, hnear, hl, hfind]
    cases hact : w.actRes (.repairC r.id) <;> simp [hused, hact]
  · intro l hl hfind
    simp only [run_creep, hsp, hget, hsites, hnear, hl, hfind]
    simp [hused]

theorem construct_rampart_repair_witness :
    cexCreep.spawning = false ∧
    cexStore.get cexCreep.name = some (CreepTarget.construct cexPos) ∧
    0 < cexCreep.usedEnergy ∧
    isNearTo cexCreep.pos cexPos = true ∧
    cexWorld.lookConstructionSites cexPos = some [] ∧
    run_creep cexWorld cexCreep cexStore =
      (if cexWorld.actRes (.repairC cexRampart.id) = none then cexStore
       else cexStore.removeName cexCreep.name, [Command.repairC cexRampart.id]) := by
  refine ⟨rfl, by decide, by decide, by decide, rfl, ?_⟩
  exact (construct_rampart_repair cexWorld cexCreep cexStore cexPos rfl
    (by decide) (by decide) (by decide) rfl).1 [cexRampart] cexRampart rfl
    (by decide)

/-- C9: the road-vacating neighbor computation is not total.  At every
in-room position on a room edge (x or y equal to 0 or 49) some visited
neighbor offset wraps through the unsigned 8-bit addition to an
out-of-range coordinate, so `RoomCoordinate::new(..).unwrap()` panics; and
the panic is reachable: the assigner pass over a creep standing on a road
at `x = 0` aborts (models the unwrap panic) instead of skipping the
neighbor. -/
theorem edge_neighbor_panic :
    (∀ p : Pos, p.x ≤ 49 → p.y ≤ 49 →
      (p.x = 0 ∨ p.x = 49 ∨ p.y = 0 ∨ p.y = 49) →
      ∃ d ∈ offsets, neighborPos p d = none) ∧
    assignOne panicWorld ["a"] panicCreep [] = none := by
  constructor
  · rintro ⟨x, y⟩ hx hy h
    dsimp only at hx hy h
    rcases h with h | h | h | h <;> subst h
    · exact ⟨(-1, -1), by simp [offsets], by simp [neighborPos, u8add, asU8,
        roomCoordinateNew]⟩
    · exact ⟨(1, 0), by simp [offsets], by simp [neighborPos, u8add, asU8,
        roomCoordinateNew]⟩
    · refine ⟨(0, -1), by simp [offsets], ?_⟩
      have hxm : x % 256 = x := Nat.mod_eq_of_lt (by omega)
      simp [neighborPos, u8add, asU8, roomCoordinateNew, hxm, hx]
    · refine ⟨(0, 1), by simp [offsets], ?_⟩
      have hxm : x % 256 = x := Nat.mod_eq_of_lt (by omega)
      simp [neighborPos, u8add, asU8, roomCoordinateNew, hxm, hx]
  · decide

theorem edge_neighbor_panic_witness :
    (⟨0, 25⟩ : Pos).x ≤ 49 ∧ (⟨0, 25⟩ : Pos).y ≤ 49 ∧
    ((⟨0, 25⟩ : Pos).x = 0 ∨ (⟨0, 25⟩ : Pos).x = 49 ∨
      (⟨0, 25⟩ : Pos).y = 0 ∨ (⟨0, 25⟩ : Pos).y = 49) ∧
    ∃ d ∈ offsets, neighborPos ⟨0, 25⟩ d = none :=
  ⟨by decide, by decide, by decide,
    edge_neighbor_panic.1 ⟨0, 25⟩ (by decide) (by decide) (by decide)⟩

/-! ## Store lemmas -/

theorem find?_filter_ne (l : List (String × CreepTarget)) (n m : String)
    (h : ¬ m = n) :
    (l.filter (fun e => e.1 != n)).find? (fun e => e.1 == m) =
      l.find? (fun e => e.1 == m) := by
  induction l with
  | nil => rfl
  | cons e l ih =>
    by_cases hen : e.1 = n
    · have h1 : (e.1 != n) = false := by simp [hen]
      have h2 : (e.1 == m) = false := by
        simp only [beq_eq_false_iff_ne, ne_eq]
        intro hh
        exact h (hh.symm.trans hen)
      simp [List.filter_cons, h1, List.find?_cons, h2, ih]
    · have h1 : (e.1 != n) = true := by simp [hen]
      by_cases hem : e.1 = m
      · have h2 : (e.1 == m) = true := by simp [hem]
        simp [List.filter_cons, h1, List.find?_cons, h2]
      · have h2 : (e.1 == m) = false := by simp [hem]
        simp [List.filter_cons, h1, List.find?_cons, h2, ih]

theorem containsName_insertName_ne (s : Store) (n m : String) (t : CreepTarget)
    (h : ¬ m = n) :
    (s.insertName n t).containsName m = s.containsName m := by
  unfold Store.insertName Store.containsName Store.removeName
  rw [List.find?_cons_of_neg, find?_filter_ne s n m h]
  simp only [beq_iff_eq]
  exact fun hh => h hh.symm

/-- C3: in the gathering role with carry capability, a successful Withdraw
assignment (and, failing that, a successful Pickup assignment) executes a
`return`: the sweep over `c :: post` ends at `c` with only `c`'s insertion,
and every later creep that lacked an assignment still lacks one. -/
theorem withdraw_pickup_stops_sweep (w : AssignWorld) (live : List String)
    (c : CreepState) (post : List CreepState) (store : Store)
    (hun : store.containsName c.name = false)
    (hzero : c.usedEnergy = 0)
    (hcarry : c.hasCarry = true) :
    (∀ container, maxByKey (fun s => s.usedEnergy)
        (gatherContainers (w.roomOf c.name) c) = some container →
      assignLoop w live (c :: post) store =
        some (store.insertName c.name (.withdraw container.id), []) ∧
      ∀ d ∈ post, ¬ d.name = c.name → store.containsName d.name = false →
        (store.insertName c.name
          (.withdraw container.id)).containsName d.name = false) ∧
    (maxByKey (fun s => s.usedEnergy)
        (gatherContainers (w.roomOf c.name) c) = none →
      ∀ energy, maxByKey (fun r => r.amount)
        (gatherDropped (w.roomOf c.name) c) = some energy →
      assignLoop w live (c :: post) store =
        some (store.insertName c.name (.pickup energy.pos), []) ∧
      ∀ d ∈ post, ¬ d.name = c.name → store.containsName d.name = false →
        (store.insertName c.name
          (.pickup energy.pos)).containsName d.name = false) := by
  constructor
  · intro container hmax
    constructor
    · simp only [assignLoop, assignOne, hun, hzero, hcarry, assignGathering,
        hmax]
      simp
    · intro d _ hne hd
      rw [containsName_insertName_ne store c.name d.name _ hne]
      exact hd
  · intro hnone energy hmax
    constructor
    · simp only [assignLoop, assignOne, hun, hzero, hcarry, assignGathering,
        hnone, hmax]
      simp
    · intro d _ hne hd
      rw [containsName_insertName_ne store c.name d.name _ hne]
      exact hd

theorem withdraw_pickup_stops_sweep_witness :
    Store.containsName [] carrierA.name = false ∧
    carrierA.usedEnergy = 0 ∧ carrierA.hasCarry = true ∧
    maxByKey (fun s => s.usedEnergy)
      (gatherContainers (containerWorld.roomOf carrierA.name) carrierA)
      = some witContainer ∧
    (assignLoop containerWorld ["a", "b"] [carrierA, carrierB] [] =
      some (Store.insertName [] carrierA.name (CreepTarget.withdraw 5), []) ∧
    ∀ d ∈ [carrierB], ¬ d.name = carrierA.name →
      Store.containsName [] d.name = false →
      Store.containsName
        (Store.insertName [] carrierA.name (CreepTarget.withdraw 5))
        d.name = false) := by
  refine ⟨rfl, rfl, rfl, by decide, ?_⟩
  have h := (withdraw_pickup_stops_sweep containerWorld ["a", "b"] carrierA
    [carrierB] [] rfl rfl rfl).1 witContainer (by decide)
  exact h

/-- C8: a pure gatherer (no carry capability, carrying nothing, not yet
assigned): when every active source is claimed by a live agent's Harvest
lock it receives the self-terminate command and no insertion is made for
it this pass; otherwise it is assigned Harvest of an unclaimed active
source.  (The hypothesis on `roadFallback` says the subsequent
road-vacating scan completes without the C9 panic.) -/
theorem gatherer_cull (w : AssignWorld) (live : List String) (c : CreepState)
    (store : Store)
    (hun : store.containsName c.name = false)
    (hzero : c.usedEnergy = 0)
    (hnoc : c.hasCarry = false) :
    ((∀ src ∈ (w.roomOf c.name).activeSources,
        sourceClaimed live store src = true) →
      ∀ cmds, roadFallback w c.pos = some cmds →
      assignOne w live c store =
        some (store, .suicideC c.name :: cmds, false)) ∧
    (∀ src, (w.roomOf c.name).activeSources.find?
        (fun source => !sourceClaimed live store source) = some src →
      assignOne w live c store =
        some (store.insertName c.name (.harvest src.id), [], true) ∧
      sourceClaimed live store src = false) := by
  constructor
  · intro hall cmds hfb
    have hnone : (w.roomOf c.name).activeSources.find?
        (fun source => !sourceClaimed live store source) = none := by
      rw [List.find?_eq_none]
      intro src hsrc
      simp [hall src hsrc]
    simp only [assignOne, hun, hzero, hnoc, assignGathering, hnone, hfb]
    simp
  · intro src hfind
    have hp := List.find?_some hfind
    simp only [Bool.not_eq_true'] at hp
    constructor
    · simp only [assignOne, hun, hzero, hnoc, assignGathering, hfind]
      simp
    · exact hp

theorem gatherer_cull_witness :
    Store.containsName [("b", CreepTarget.harvest 3)] gathererA.name = false ∧
    gathererA.usedEnergy = 0 ∧ gathererA.hasCarry = false ∧
    (∀ src ∈ (sourceWorld.roomOf gathererA.name).activeSources,
      sourceClaimed ["a", "b"] [("b", CreepTarget.harvest 3)] src = true) ∧
    roadFallback sourceWorld gathererA.pos = some [] ∧
    assignOne sourceWorld ["a", "b"] gathererA [("b", CreepTarget.harvest 3)] =
      some ([("b", CreepTarget.harvest 3)],
        Command.suicideC gathererA.name :: [], false) := by
  refine ⟨by decide, rfl, rfl, by decide, by decide, ?_⟩
  exact (gatherer_cull sourceWorld ["a", "b"] gathererA
    [("b", CreepTarget.harvest 3)] (by decide) rfl rfl).1
    (by decide) [] (by decide)

/-- C10: successfully assigning Harvest also executes a `return`: the sweep
over `c :: post` ends at `c` with only `c`'s Harvest insertion, and every
later creep that lacked an assignment still lacks one. -/
theorem harvest_stops_sweep (w : AssignWorld) (live : List String)
    (c : CreepState) (post : List CreepState) (store : Store) (src : Source)
    (hun : store.containsName c.name = false)
    (hzero : c.usedEnergy = 0)
    (hnoc : c.hasCarry = false)
    (hfind : (w.roomOf c.name).activeSources.find?
      (fun source => !sourceClaimed live store source) = some src) :
    assignLoop w live (c :: post) store =
      some (store.insertName c.name (.harvest src.id), []) ∧
    ∀ d ∈ post, ¬ d.name = c.name → store.containsName d.name = false →
      (store.insertName c.name (.harvest src.id)).containsName d.name
        = false := by
  constructor
  · simp only [assignLoop, assignOne, hun, hzero, hnoc, assignGathering,
      hfind]
    simp
  · intro d _ hne hd
    rw [containsName_insertName_ne store c.name d.name _ hne]
    exact hd

theorem harvest_stops_sweep_witness :
    Store.containsName [] gathererA.name = false ∧
    gathererA.usedEnergy = 0 ∧ gathererA.hasCarry = false ∧
    (sourceWorld.roomOf gathererA.name).activeSources.find?
      (fun source => !sourceClaimed ["a", "b"] [] source)
      = some ⟨3, ⟨20, 20⟩⟩ ∧
    (assignLoop sourceWorld ["a", "b"] [gathererA, gathererB] [] =
      some (Store.insertName [] gathererA.name (CreepTarget.harvest 3), []) ∧
    ∀ d ∈ [gathererB], ¬ d.name = gathererA.name →
      Store.containsName [] d.name = false →
      Store.containsName
        (Store.insertName [] gathererA.name (CreepTarget.harvest 3))
        d.name = false) := by
  refine ⟨rfl, rfl, rfl, by decide, ?_⟩
  exact harvest_stops_sweep sourceWorld ["a", "b"] gathererA [gathererB] []
    ⟨3, ⟨20, 20⟩⟩ rfl rfl rfl (by decide)

/-! ## Selection lemmas -/

theorem minByWith_eq_none {α : Type} (lt : α → α → Bool) (l : List α)
    (h : minByWith lt l = none) : l = [] := by
  cases l with
  | nil => rfl
  | cons a as =>
    exfalso
    unfold minByWith at h
    cases hmin : minByWith lt as <;> rw [hmin] at h <;> dsimp only at h
    · exact Option.noConfusion h
    · split at h <;> exact Option.noConfusion h

theorem minByWith_spec {α : Type} (lt : α → α → Bool)
    (hasym : ∀ a b, lt a b = true → lt b a = false)
    (hneg : ∀ a b c, lt a b = false → lt b c = false → lt a c = false) :
    ∀ (l : List α) (m : α), minByWith lt l = some m →
      m ∈ l ∧ ∀ t ∈ l, lt t m = false := by
  have hirr : ∀ a, lt a a = false := by
    intro a
    cases hb : lt a a with
    | false => rfl
    | true => have := hasym a a hb; simp [this] at hb
  intro l
  induction l with
  | nil => intro m h; simp [minByWith] at h
  | cons a as ih =>
    intro m h
    unfold minByWith at h
    cases hmin : minByWith lt as with
    | none =>
      rw [hmin] at h
      dsimp only at h
      have has : as = [] := minByWith_eq_none lt as hmin
      subst has
      injection h with h
      subst h
      refine ⟨List.mem_singleton.mpr rfl, ?_⟩
      intro t ht
      rw [List.mem_singleton] at ht
      subst ht
      exact hirr t
    | some b =>
      rw [hmin] at h
      dsimp only at h
      obtain ⟨hbmem, hbmin⟩ := ih b hmin
      by_cases hba : lt b a = true
      · rw [if_pos hba] at h
        injection h with h
        subst h
        refine ⟨List.mem_cons_of_mem a hbmem, ?_⟩
        intro t ht
        rcases List.mem_cons.mp ht with rfl | ht
        · exact hasym _ _ hba
        · exact hbmin t ht
      · rw [if_neg hba] at h
        injection h with h
        subst h
        have hba2 : lt b a = false := by
          revert hba; cases lt b a <;> simp
        refine ⟨List.mem_cons_self a as, ?_⟩
        intro t ht
        rcases List.mem_cons.mp ht with rfl | ht
        · exact hirr t
        · exact hneg t b a (hbmin t ht) hba2

theorem lexLt_asymm (a b : Nat × Nat) :
    lexLt a b = true → lexLt b a = false := by
  simp only [lexLt, Bool.or_eq_true, Bool.and_eq_true, Bool.or_eq_false_iff,
    Bool.and_eq_false_iff, beq_iff_eq, beq_eq_false_iff_ne, ne_eq,
    decide_eq_true_eq, decide_eq_false_iff_not]
  omega

theorem lexLt_negtrans (a b c : Nat × Nat) :
    lexLt a b = false → lexLt b c = false → lexLt a c = false := by
  simp only [lexLt, Bool.or_eq_false_iff, Bool.and_eq_false_iff,
    beq_iff_eq, beq_eq_false_iff_ne, ne_eq, decide_eq_false_iff_not]
  omega

theorem repairKey_min_facts (st t : Structure)
    (h : lexLt (repairKey t) (repairKey st) = false) :
    st.hits ≤ t.hits ∧
      (st.hits = t.hits → t.stype = .rampart → st.stype = .rampart) := by
  by_cases hs : st.stype = SType.rampart <;>
    by_cases ht : t.stype = SType.rampart <;>
      simp only [repairKey, hs, ht, if_pos, if_neg, beq_iff_eq, beq_self_eq_true,
        if_true, lexLt, Bool.or_eq_false_iff, Bool.and_eq_false_iff,
        beq_eq_false_iff_ne, ne_eq, decide_eq_false_iff_not] at h <;>
      (simp_all; try omega)

/-- C7: the delivering role's repair branch.  (1) The candidate set is
exactly the repairable structures whose hits are below half their maximum
(`u32` integer halving).  (2) When the branch assigns, the gate held (no
live agent's store entry is a `Repair` assignment) and the inserted target
is the position of a candidate whose hits are minimal, where on equal hits
a rampart is never beaten by a non-rampart. -/
theorem repair_branch_selection :
    (∀ room s, s ∈ repairCandidates room ↔
      (s ∈ room.allStructures ∧ s.repairable = true ∧
        s.hits < s.hitsMax / 2)) ∧
    (∀ live store creep room s1,
      repairBranch live store creep room = some s1 →
      store.any (fun e => isRepairT e.2 && live.contains e.1) = false ∧
      ∃ st ∈ repairCandidates room,
        s1 = store.insertName creep.name (.repair st.pos) ∧
        ∀ t ∈ repairCandidates room,
          st.hits ≤ t.hits ∧
            (st.hits = t.hits → t.stype = .rampart → st.stype = .rampart)) := by
  constructor
  · intro room s
    simp [repairCandidates, List.mem_filter]
  · intro live store creep room s1 h
    unfold repairBranch at h
    split at h
    case isFalse => exact absurd h (by simp)
    case isTrue hgate =>
      have hgate2 : store.any (fun e => isRepairT e.2 && live.contains e.1)
          = false := by
        revert hgate
        unfold repairGate
        cases store.any (fun e => isRepairT e.2 && live.contains e.1) <;> simp
      refine ⟨hgate2, ?_⟩
      cases hmin : minByWith (fun a b => lexLt (repairKey a) (repairKey b))
          (repairCandidates room) with
      | none => rw [hmin] at h; exact absurd h (by simp)
      | some st =>
        rw [hmin] at h
        injection h with h
        obtain ⟨hmem, hminim⟩ := minByWith_spec
          (fun a b => lexLt (repairKey a) (repairKey b))
          (fun a b => lexLt_asymm (repairKey a) (repairKey b))
          (fun a b c => lexLt_negtrans (repairKey a) (repairKey b) (repairKey c))
          (repairCandidates room) st hmin
        refine ⟨st, hmem, h.symm, ?_⟩
        intro t ht
        exact repairKey_min_facts st t (hminim t ht)

theorem repair_branch_selection_witness :
    repairBranch ["a"] [] delivererA repairRoom
      = some (Store.insertName [] delivererA.name (CreepTarget.repair ⟨6, 5⟩)) ∧
    (List.any ([] : Store) (fun e => isRepairT e.2 && List.contains ["a"] e.1)
      = false ∧
    ∃ st ∈ repairCandidates repairRoom,
      Store.insertName [] delivererA.name (CreepTarget.repair ⟨6, 5⟩) =
        Store.insertName [] delivererA.name (CreepTarget.repair st.pos) ∧
      ∀ t ∈ repairCandidates repairRoom,
        st.hits ≤ t.hits ∧
          (st.hits = t.hits → t.stype = .rampart → st.stype = .rampart)) :=
  ⟨by decide,
    repair_branch_selection.2 ["a"] [] delivererA repairRoom _ (by decide)⟩

/-! ## Deposit-count lemmas -/

theorem countDeposit_cons (e : String × CreepTarget) (s : Store) :
    countDeposit (e :: s) =
      (if isDepositT e.2 = true then 1 else 0) + countDeposit s := by
  by_cases hd : isDepositT e.2 <;>
    simp [countDeposit, List.filter_cons, hd, Nat.add_comm]

theorem countDeposit_removeName_le (s : Store) (n : String) :
    countDeposit (s.removeName n) ≤ countDeposit s := by
  induction s with
  | nil => exact Nat.le_refl 0
  | cons e s ih =>
    unfold Store.removeName at ih ⊢
    rw [List.filter_cons]
    by_cases he : (e.1 != n) = true
    · rw [if_pos he, countDeposit_cons, countDeposit_cons]
      exact Nat.add_le_add_left ih _
    · rw [if_neg he, countDeposit_cons]
      exact Nat.le_trans ih (Nat.le_add_left _ _)

theorem countDeposit_insertName (s : Store) (n : String) (t : CreepTarget) :
    countDeposit (s.insertName n t) =
      (if isDepositT t = true then 1 else 0) +
        countDeposit (s.removeName n) := by
  unfold Store.insertName
  rw [countDeposit_cons]

theorem anyDeposit_false_count (s : Store) (h : anyDeposit s = false) :
    countDeposit s = 0 := by
  unfold anyDeposit at h
  rw [List.any_eq_false] at h
  have hnil : s.filter (fun e => isDepositT e.2) = [] := by
    rw [List.filter_eq_nil_iff]
    exact h
  unfold countDeposit
  rw [hnil]
  rfl

/-! ## Assigner branch characterizations -/

theorem tryDeposit_some (store : Store) (creep : CreepState)
    (cands : List Structure) (s1 : Store)
    (h : tryDeposit store creep cands = some s1) :
    ∃ q, s1 = store.insertName creep.name (.deposit q) ∧
      anyDeposit store = false := by
  unfold tryDeposit at h
  split at h
  next target heq =>
    split at h
    next hg =>
      injection h with h
      refine ⟨target.pos, h.symm, ?_⟩
      revert hg
      cases anyDeposit store <;> simp
    next => exact Option.noConfusion h
  next => exact Option.noConfusion h

theorem tryConstructTier_some (store : Store) (creep : CreepState)
    (gate : Bool) (sites : List Site) (s1 : Store)
    (h : tryConstructTier store creep gate sites = some s1) :
    ∃ q, s1 = store.insertName creep.name (.construct q) := by
  unfold tryConstructTier at h
  split at h
  next site heq =>
    split at h
    next => injection h with h; exact ⟨site.pos, h.symm⟩
    next => exact Option.noConfusion h
  next => exact Option.noConfusion h

theorem repairBranch_some (live : List String) (store : Store)
    (creep : CreepState) (room : Room) (s1 : Store)
    (h : repairBranch live store creep room = some s1) :
    ∃ q, s1 = store.insertName creep.name (.repair q) := by
  unfold repairBranch at h
  split at h
  next =>
    split at h
    next st heq => injection h with h; exact ⟨st.pos, h.symm⟩
    next => exact Option.noConfusion h
  next => exact Option.noConfusion h

theorem upgradeBranch_some (store : Store) (creep : CreepState) (room : Room)
    (s1 : Store)
    (h : upgradeBranch store creep room = some s1) :
    ∃ i, s1 = store.insertName creep.name (.upgrade i) := by
  unfold upgradeBranch at h
  split at h
  next ctrl heq => injection h with h; exact ⟨ctrl.id, h.symm⟩
  next => exact Option.noConfusion h

theorem depositBranch_some (store : Store) (creep : CreepState) (room : Room)
    (s1 : Store)
    (h : depositBranch store creep room = some s1) :
    ∃ q, s1 = store.insertName creep.name (.deposit q) ∧
      anyDeposit store = false := by
  simp only [depositBranch] at h
  split at h
  next sx heq => injection h with h; subst h; exact tryDeposit_some _ _ _ _ heq
  next =>
    split at h
    next sx heq =>
      injection h with h; subst h; exact tryDeposit_some _ _ _ _ heq
    next => exact tryDeposit_some _ _ _ _ h

theorem constructBranch_some (live : List String) (store : Store)
    (creep : CreepState) (room : Room) (s1 : Store)
    (h : constructBranch live store creep room = some s1) :
    ∃ q, s1 = store.insertName creep.name (.construct q) := by
  simp only [constructBranch] at h
  split at h
  next sx heq =>
    injection h with h; subst h; exact tryConstructTier_some _ _ _ _ _ heq
  next =>
    split at h
    next sx heq =>
      injection h with h; subst h; exact tryConstructTier_some _ _ _ _ _ heq
    next =>
      split at h
      next sx heq =>
        injection h with h; subst h; exact tryConstructTier_some _ _ _ _ _ heq
      next => exact tryConstructTier_some _ _ _ _ _ h

theorem assignDelivering_cases (live : List String) (store : Store)
    (creep : CreepState) (room : Room) :
    assignDelivering live store creep room = store ∨
    ∃ t, assignDelivering live store creep room
        = store.insertName creep.name t ∧
      (isDepositT t = true → anyDeposit store = false) := by
  cases hd : depositBranch store creep room with
  | some s1 =>
    obtain ⟨q, hq, hg⟩ := depositBranch_some _ _ _ _ hd
    refine Or.inr ⟨.deposit q, ?_, fun _ => hg⟩
    simp [assignDelivering, hd, hq]
  | none =>
    cases hc : constructBranch live store creep room with
    | some s1 =>
      obtain ⟨q, hq⟩ := constructBranch_some _ _ _ _ _ hc
      refine Or.inr ⟨.construct q, ?_, ?_⟩
      · simp [assignDelivering, hd, hc, hq]
      · intro hh; exact absurd hh (by simp [isDepositT])
    | none =>
      cases hr : repairBranch live store creep room with
      | some s1 =>
        obtain ⟨q, hq⟩ := repairBranch_some _ _ _ _ _ hr
        refine Or.inr ⟨.repair q, ?_, ?_⟩
        · simp [assignDelivering, hd, hc, hr, hq]
        · intro hh; exact absurd hh (by simp [isDepositT])
      | none =>
        cases hu : upgradeBranch store creep room with
        | some s1 =>
          obtain ⟨i, hi⟩ := upgradeBranch_some _ _ _ _ hu
          refine Or.inr ⟨.upgrade i, ?_, ?_⟩
          · simp [assignDelivering, hd, hc, hr, hu, hi]
          · intro hh; exact absurd hh (by simp [isDepositT])
        | none =>
          refine Or.inl ?_
          simp [assignDelivering, hd, hc, hr, hu]

theorem assignGathering_cases (w : AssignWorld) (live : List String)
    (creep : CreepState) (store s1 : Store) (cmds : List Command) (b : Bool)
    (h : assignGathering w live creep store = some (s1, cmds, b)) :
    s1 = store ∨
    ∃ t, s1 = store.insertName creep.name t ∧ isDepositT t = false := by
  simp only [assignGathering] at h
  split at h
  · split at h
    next container heq =>
      simp only [Option.some.injEq, Prod.mk.injEq] at h
      exact Or.inr ⟨.withdraw container.id, h.1.symm, rfl⟩
    next =>
      split at h
      next energy heq =>
        simp only [Option.some.injEq, Prod.mk.injEq] at h
        exact Or.inr ⟨.pickup energy.pos, h.1.symm, rfl⟩
      next =>
        split at h
        next cmds2 heq =>
          simp only [Option.some.injEq, Prod.mk.injEq] at h
          exact Or.inl h.1.symm
        next => exact Option.noConfusion h
  · split at h
    next src heq =>
      simp only [Option.some.injEq, Prod.mk.injEq] at h
      exact Or.inr ⟨.harvest src.id, h.1.symm, rfl⟩
    next =>
      split at h
      next cmds2 heq =>
        simp only [Option.some.injEq, Prod.mk.injEq] at h
        exact Or.inl h.1.symm
      next => exact Option.noConfusion h

theorem assignOne_deposit_bound (w : AssignWorld) (live : List String)
    (c : CreepState) (s s1 : Store) (cmds : List Command) (b : Bool)
    (h : assignOne w live c s = some (s1, cmds, b)) :
    countDeposit s1 ≤ max (countDeposit s) 1 := by
  unfold assignOne at h
  split at h
  · simp only [Option.some.injEq, Prod.mk.injEq] at h
    rw [← h.1]
    exact le_max_left _ _
  · split at h
    · simp only [Option.some.injEq, Prod.mk.injEq] at h
      rcases assignDelivering_cases live s c (w.roomOf c.name) with
        hq | ⟨t, ht, hdep⟩
      · rw [← h.1, hq]; exact le_max_left _ _
      · rw [← h.1, ht, countDeposit_insertName]
        have hle := countDeposit_removeName_le s c.name
        by_cases hd : isDepositT t = true
        · rw [if_pos hd]
          have h0 : countDeposit s = 0 := anyDeposit_false_count s (hdep hd)
          omega
        · rw [if_neg hd]
          have := le_max_left (countDeposit s) 1
          omega
    · rcases assignGathering_cases w live c s s1 cmds b h with
        h1 | ⟨t, ht, hd⟩
      · rw [h1]; exact le_max_left _ _
      · rw [ht, countDeposit_insertName]
        have hle := countDeposit_removeName_le s c.name
        have := le_max_left (countDeposit s) 1
        simp only [hd, Bool.false_eq_true, if_false]
        omega

theorem assignLoop_deposit_bound (w : AssignWorld) (live : List String) :
    ∀ (cs : List CreepState) (s s1 : Store) (cmds : List Command),
      assignLoop w live cs s = some (s1, cmds) →
      countDeposit s1 ≤ max (countDeposit s) 1 := by
  intro cs
  induction cs with
  | nil =>
    intro s s1 cmds h
    simp only [assignLoop, Option.some.injEq, Prod.mk.injEq] at h
    rw [← h.1]
    exact le_max_left _ _
  | cons c cs ih =>
    intro s s1 cmds h
    unfold assignLoop at h
    cases hone : assignOne w live c s with
    | none => rw [hone] at h; exact absurd h (by simp)
    | some trip =>
      obtain ⟨sm, c1, bfl⟩ := trip
      rw [hone] at h
      cases bfl with
      | true =>
        dsimp only at h
        simp only [Option.some.injEq, Prod.mk.injEq] at h
        rw [← h.1]
        exact assignOne_deposit_bound w live c s sm c1 true hone
      | false =>
        dsimp only at h
        cases hloop : assignLoop w live cs sm with
        | none => rw [hloop] at h; exact absurd h (by simp)
        | some pr =>
          obtain ⟨s2, c2⟩ := pr
          rw [hloop] at h
          simp only [Option.some.injEq, Prod.mk.injEq] at h
          rw [← h.1]
          have hb1 := assignOne_deposit_bound w live c s sm c1 false hone
          have hb2 := ih sm s2 c2 hloop
          omega

theorem run_creep_fst (w : World) (creep : CreepState) (store : Store) :
    (run_creep w creep store).1 = store ∨
    (run_creep w creep store).1 = store.removeName creep.name := by
  simp only [run_creep]
  repeat' split
  all_goals simp

/-- C1: Deposit exclusivity.  (1) An assigner pass starting from a store
with no `Deposit` entry ends with at most one.  (2) More generally every
pass inserts a `Deposit` only under the no-existing-`Deposit` guard, so the
count never exceeds `max (before) 1`.  (3) The executor never adds
`Deposit` entries (its result store is the input or the input minus the
agent's entry), so the bound holds at every point of the tick. -/
theorem deposit_exclusivity :
    (∀ (w : AssignWorld) (creeps : List CreepState) (store s1 : Store)
        (cmds : List Command),
      assign_new_targets w creeps store = some (s1, cmds) →
      countDeposit store = 0 → countDeposit s1 ≤ 1) ∧
    (∀ (w : AssignWorld) (creeps : List CreepState) (store s1 : Store)
        (cmds : List Command),
      assign_new_targets w creeps store = some (s1, cmds) →
      countDeposit s1 ≤ max (countDeposit store) 1) ∧
    (∀ (w : World) (creep : CreepState) (store : Store),
      countDeposit (run_creep w creep store).1 ≤ countDeposit store) := by
  refine ⟨?_, ?_, ?_⟩
  · intro w creeps store s1 cmds h h0
    unfold assign_new_targets at h
    have hb := assignLoop_deposit_bound w _ creeps store s1 cmds h
    rw [h0] at hb
    simpa using hb
  · intro w creeps store s1 cmds h
    unfold assign_new_targets at h
    exact assignLoop_deposit_bound w _ creeps store s1 cmds h
  · intro w creep store
    rcases run_creep_fst w creep store with h | h
    · rw [h]
    · rw [h]
      exact countDeposit_removeName_le store creep.name

theorem deposit_exclusivity_witness :
    assign_new_targets extensionWorld [delivererA, delivererB] []
      = some ([("a", CreepTarget.deposit ⟨4, 4⟩)], []) ∧
    countDeposit [] = 0 ∧
    countDeposit [("a", CreepTarget.deposit ⟨4, 4⟩)] ≤ 1 :=
  ⟨by decide, rfl,
    deposit_exclusivity.1 extensionWorld [delivererA, delivererB] []
      [("a", CreepTarget.deposit ⟨4, 4⟩)] [] (by decide) rfl⟩

end Screeps
